import Mathlib

/-!
Shallow embedding of the field-state controller implemented in
`src/plugins/elasticsearch_ui_shared/static/forms/hook_form_lib/hooks/use_field.ts`.

The hook tracks one form field's value, error list and status flags and exposes
imperative operations (`setValue`, `validate`, `clearErrors`, `setErrors`,
`getErrorsMessages`).  React state cells become fields of an explicit
`FieldState` record; the `validateCounter` ref becomes a `Nat` field; the two
phases of a `validate` invocation (the synchronous prologue up to the point the
validators start running, and the epilogue `onValidationResult`) are modelled as
separate state transformers so that overlapping invocations can be expressed.
Validators and formatters are caller-supplied functions; validators are embedded
as pure functions returning an explicit outcome (falsy return / truthy returned
failure / thrown failure).  Timers (the debounce window) and the external form
coordinator callbacks (`__getFormData`, `__updateFormDataAt`, `__validateFields`,
`__addField`) are outside the field-local state modelled here; `formData` is
passed in as an opaque value.
-/

set_option maxHeartbeats 1000000

namespace UseFieldModel

/-- Values flowing through the field: the embedding of the JS values the hook
manipulates (strings, numbers, booleans, null). -/
inductive Val where
  | str (s : String)
  | int (n : Int)
  | bool (b : Bool)
  | null
  deriving DecidableEq

/-- Modelled from the spec: the VALIDATION_TYPES constants module is not among
the sources at hand; the spec names the default validation type "field". -/
def VALIDATION_TYPES.FIELD : String := "field"

/-- Modelled from the spec: the "async" validation type tag. -/
def VALIDATION_TYPES.ASYNC : String := "async"

/-- Modelled from the spec: the FIELD_TYPES constants module is not among the
sources at hand; the spec names the field kind "text" (the default). -/
def FIELD_TYPES.TEXT : String := "text"

/-- Modelled from the spec: the "number" field kind. -/
def FIELD_TYPES.NUMBER : String := "number"

/-- Embedding of `ValidationError`: a message plus the optional `validationType`
tag (`none` models a JS object on which the property is absent, e.g. an error
pushed through the exposed `setErrors`).  Extra ad-hoc properties a validator
may attach to the failure object are not modelled. -/
structure ValidationError where
  message : String
  validationType : Option String
  deriving DecidableEq

/-- The argument record handed to every validator:
`{ value, errors, formData, path }`. -/
structure ValidatorArgs where
  value : Val
  errors : List ValidationError
  formData : Val
  path : String

/-- Outcome of invoking one validator: a falsy return (`ok`), a truthy returned
failure value (`fail`), or a thrown failure value (`thrown`).  Thrown values are
taken to be failure objects, hence truthy. -/
inductive ValidatorOutcome where
  | ok
  | fail (validationResult : ValidationError)
  | thrown (error : ValidationError)
  deriving DecidableEq

/-- A configured validation message override: a literal, or a function of the
failure being reported. -/
inductive ValidationMessage where
  | literal (m : String)
  | computed (f : ValidationError → String)

/-- Embedding of `ValidationConfig`: the validator function plus its
`exitOnFail` flag, optional `type` tag and optional `message` override.
`Option` models a property left undefined in the JS config object. -/
structure ValidationConfig where
  validator : ValidatorArgs → ValidatorOutcome
  exitOnFail : Option Bool := none
  type : Option String := none
  message : Option ValidationMessage := none

/-- Embedding of `getValidationErrorWithMessage`: the configured message
overrides the failure's own message when defined; a function-valued message is
applied to the failure. -/
def getValidationErrorWithMessage (validation : ValidationConfig)
    (validationResult : ValidationError) : ValidationError :=
  match validation.message with
  | none => validationResult
  | some (ValidationMessage.literal m) => { validationResult with message := m }
  | some (ValidationMessage.computed f) =>
      { validationResult with message := f validationResult }

/-- Embedding of `validation.type || VALIDATION_TYPES.FIELD`: JS `||`, under
which an empty string counts as falsy. -/
def typeOrField (t : Option String) : String :=
  match t with
  | none => VALIDATION_TYPES.FIELD
  | some s => if s = "" then VALIDATION_TYPES.FIELD else s

/-- The decorated error the run pushes onto its list: the message-resolved
failure with `validationType` overwritten by `validation.type || FIELD`. -/
def pushedError (validation : ValidationConfig) (validationResult : ValidationError) :
    ValidationError :=
  { getValidationErrorWithMessage validation validationResult with
      validationType := some (typeOrField validation.type) }

/-- Embedding of the guard
`typeof validationTypeToValidate !== 'undefined' && validationType !== validationTypeToValidate`. -/
def typeMismatch (validationTypeToValidate : Option String) (validationType : String) : Bool :=
  match validationTypeToValidate with
  | none => false
  | some t => validationType != t

/-- Embedding of one iteration of the validator loop shared by `validateSync`
and `validateAsync`: the inner `runValidation` plus the loop body that
decorates and pushes a truthy result.  The running state is
`(skip, validationErrors)`.  Destructuring gives the validation's type a
default of FIELD (only an absent property triggers it).  A truthy return with
`exitOnFail !== false` is thrown and immediately caught, setting `skip`; a
failure thrown by the validator itself is caught the same way, so it sets
`skip` regardless of `exitOnFail`. -/
def runValidation (formData valueToValidate : Val) (path : String)
    (validationTypeToValidate : Option String)
    (state : Bool × List ValidationError) (validation : ValidationConfig) :
    Bool × List ValidationError :=
  let skip := state.1
  let validationErrors := state.2
  let validationType := validation.type.getD VALIDATION_TYPES.FIELD
  if skip || typeMismatch validationTypeToValidate validationType then
    state
  else
    match validation.validator ⟨valueToValidate, validationErrors, formData, path⟩ with
    | ValidatorOutcome.ok => state
    | ValidatorOutcome.fail validationResult =>
        if validation.exitOnFail == some false then
          (skip, validationErrors ++ [pushedError validation validationResult])
        else
          (true, validationErrors ++ [pushedError validation validationResult])
    | ValidatorOutcome.thrown error =>
        (true, validationErrors ++ [pushedError validation error])

/-- Embedding of `validateSync`: fold the validator loop over the configured
validations, starting from `skip = false` and an empty error list, and return
the accumulated `validationErrors`. -/
def validateSync (validations : List ValidationConfig) (formData valueToValidate : Val)
    (path : String) (validationTypeToValidate : Option String) : List ValidationError :=
  (validations.foldl
    (runValidation formData valueToValidate path validationTypeToValidate)
    (false, [])).2

/-- Embedding of the error list computed by `validateAsync`: the source's
promise-chained `reduce` awaits each validator before the next one runs, which
for validators embedded as pure functions is the same sequential fold as
`validateSync` (the source duplicates the `runValidation` body verbatim across
the two functions).  The `clearErrors([FIELD, ASYNC])` side effect performed at
the start of `validateAsync` is modelled in `validateStart` below. -/
def validateAsyncErrors (validations : List ValidationConfig) (formData valueToValidate : Val)
    (path : String) (validationTypeToValidate : Option String) : List ValidationError :=
  (validations.foldl
    (runValidation formData valueToValidate path validationTypeToValidate)
    (false, [])).2

/-- Embedding of `filterErrors`: keep the errors whose `validationType` differs
from every addressed type.  The source accepts a single string or an array and
normalizes to an array; the embedding takes the normalized array. -/
def filterErrors (errors : List ValidationError) (validationTypeToFilterOut : List String) :
    List ValidationError :=
  errors.filter (fun error =>
    validationTypeToFilterOut.all (fun t => decide (error.validationType ≠ some t)))

/-- Embedding of `runFormatters`: a string input that trims to empty — i.e.
one whose every character is whitespace — is returned unchanged, otherwise the
formatter chain is folded over the input in declared order. -/
def runFormatters (formatters : List (Val → Val)) (input : Val) : Val :=
  let isEmptyString : Bool :=
    match input with
    | Val.str s => s.data.all Char.isWhitespace
    | _ => false
  if isEmptyString then input
  else formatters.foldl (fun output formatter => formatter output) input

/-- Embedding of `FieldConfig` (the parts the modelled operations consume).
`toInt` from the shared formatter library is not among the sources at hand, so
operations that need it take it as an explicit function argument. -/
structure FieldConfig where
  defaultValue : Val := Val.str ""
  type : String := FIELD_TYPES.TEXT
  validations : List ValidationConfig := []
  formatters : List (Val → Val) := []
  isValidationAsync : Bool := false

/-- Embedding of `setDefaultFormatter`, run once at init: when the configured
formatter list is empty and the field type is "number", the library's `toInt`
formatter (passed here as `toInt`) is appended; otherwise the configured list
is kept as is.  The result is the formatter list the field uses afterwards. -/
def setDefaultFormatter (toInt : Val → Val) (config : FieldConfig) : List (Val → Val) :=
  if config.formatters.length > 0 then config.formatters
  else if config.type = FIELD_TYPES.NUMBER then config.formatters ++ [toInt]
  else config.formatters

/-- The field-local mutable state: the React state cells `value`, `errors`,
`isPristine`, `isValidating`, `isUpdating` and the `validateCounter` ref. -/
structure FieldState where
  value : Val
  errors : List ValidationError
  isPristine : Bool
  isValidating : Bool
  isUpdating : Bool
  validateCounter : Nat
  deriving DecidableEq

/-- The state right after `useField` runs: value from the (deserialized)
default, no errors, pristine, not validating, not updating, counter at 0. -/
def initField (config : FieldConfig) : FieldState :=
  { value := config.defaultValue
    errors := []
    isPristine := true
    isValidating := false
    isUpdating := false
    validateCounter := 0 }

/-- Embedding of `onValueChange`: drop `isPristine` when still set, raise
`isUpdating` and (re)arm the debounce timer (the timer itself is not part of
the modelled state). -/
def onValueChange (st : FieldState) : FieldState :=
  let st1 := if st.isPristine then { st with isPristine := false } else st
  { st1 with isUpdating := true }

/-- Embedding of `setValue`: `onValueChange`, then store the formatted value.
The write of the serialized value into the external form data store is outside
the field-local state. -/
def setValue (toInt : Val → Val) (config : FieldConfig) (st : FieldState) (newValue : Val) :
    FieldState :=
  let st1 := onValueChange st
  let formattedValue := runFormatters (setDefaultFormatter toInt config) newValue
  { st1 with value := formattedValue }

/-- Embedding of the exposed `clearErrors` applied to the state: filter the
current error list by the addressed types. -/
def clearErrorsSt (st : FieldState) (validationType : List String) : FieldState :=
  { st with errors := filterErrors st.errors validationType }

/-- Embedding of calling `clearErrors()` with the argument omitted: the default
parameter is `VALIDATION_TYPES.FIELD`. -/
def clearErrorsDefault (st : FieldState) : FieldState :=
  clearErrorsSt st [VALIDATION_TYPES.FIELD]

/-- Embedding of passing a possibly-undefined `validationType` on to
`filterErrors`: an absent value hits the parameter default
`VALIDATION_TYPES.FIELD`, and a single string is normalized to an array. -/
def vtToList (validationType : Option String) : List String :=
  match validationType with
  | none => [VALIDATION_TYPES.FIELD]
  | some t => [t]

/-- Embedding of the synchronous prologue of a `validate` invocation:
`setValidating(true)`, the pre-increment `++validateCounter.current` whose
value tags this invocation, and — on the async path — the
`clearErrors([FIELD, ASYNC])` performed at the start of `validateAsync` before
the first suspension.  Returns the new state and the invocation's tag. -/
def validateStart (config : FieldConfig) (st : FieldState) : FieldState × Nat :=
  let st1 := { st with
    isValidating := true
    validateCounter := st.validateCounter + 1 }
  let st2 :=
    if config.isValidationAsync then
      clearErrorsSt st1 [VALIDATION_TYPES.FIELD, VALIDATION_TYPES.ASYNC]
    else st1
  (st2, st1.validateCounter)

/-- The `{ isValid, errors }` record a `validate` invocation hands back to its
caller. -/
structure FieldValidateResponse where
  isValid : Bool
  errors : List ValidationError
  deriving DecidableEq

/-- Embedding of `onValidationResult`: when this invocation is still the most
recent one (its tag equals the counter), clear `isValidating` and replace the
error state by the previous errors minus the addressed validation type plus
this run's errors; a stale invocation leaves the state untouched.  Either way
the caller receives this run's own `{ isValid, errors }`. -/
def onValidationResult (st : FieldState) (validateIteration : Nat)
    (validationType : Option String) (validationErrors : List ValidationError) :
    FieldState × FieldValidateResponse :=
  if validateIteration = st.validateCounter then
    ({ st with
        isValidating := false
        errors := filterErrors st.errors (vtToList validationType) ++ validationErrors },
     { isValid := validationErrors.length == 0, errors := validationErrors })
  else
    (st, { isValid := validationErrors.length == 0, errors := validationErrors })

/-- Embedding of a complete, non-overlapped `validate` invocation: the prologue,
the configured mode's validator run over the current value, then
`onValidationResult`. -/
def validate (config : FieldConfig) (path : String) (st : FieldState) (formData : Val)
    (validationType : Option String) : FieldState × FieldValidateResponse :=
  let started := validateStart config st
  let validationErrors :=
    if config.isValidationAsync then
      validateAsyncErrors config.validations formData st.value path validationType
    else
      validateSync config.validations formData st.value path validationType
  onValidationResult started.1 started.2 validationType validationErrors

/-- Embedding of `getErrorsMessages`: fold over the current errors, appending
(comma-separated) the message of every error whose `validationType` equals the
requested one, an error without the property counting toward the "field"
bucket; an empty accumulated string is replaced rather than appended to, and an
empty final string becomes `null`. -/
def getErrorsMessages (errors : List ValidationError) (validationType : String) :
    Option String :=
  let errorMessages := errors.foldl
    (fun messages error =>
      if error.validationType = some validationType ∨
          (validationType = VALIDATION_TYPES.FIELD ∧ error.validationType = none) then
        if messages = "" then error.message else messages ++ ", " ++ error.message
      else messages) ""
  if errorMessages = "" then none else some errorMessages

/-- Embedding of calling `getErrorsMessages()` with the argument omitted: the
default parameter is `VALIDATION_TYPES.FIELD`. -/
def getErrorsMessagesDefault (errors : List ValidationError) : Option String :=
  getErrorsMessages errors VALIDATION_TYPES.FIELD

/-- The exposed state-mutating operations of the controller, for lifecycle
invariants.  `onChange` delegates to `setValue` after adapting the event and
`getErrorsMessages` is read-only, so they add no transitions. -/
inductive FieldOp where
  | setValueOp (newValue : Val)
  | clearErrorsOp (validationType : List String)
  | setErrorsOp (errors : List ValidationError)
  | validateOp (formData : Val) (validationType : Option String)
  | startValidateOp
  | finishValidateOp (validateIteration : Nat) (validationType : Option String)
      (validationErrors : List ValidationError)

/-- Apply one exposed operation to the field state. -/
def applyOp (toInt : Val → Val) (config : FieldConfig) (path : String)
    (st : FieldState) : FieldOp → FieldState
  | FieldOp.setValueOp newValue => setValue toInt config st newValue
  | FieldOp.clearErrorsOp validationType => clearErrorsSt st validationType
  | FieldOp.setErrorsOp errors => { st with errors := errors }
  | FieldOp.validateOp formData validationType =>
      (validate config path st formData validationType).1
  | FieldOp.startValidateOp => (validateStart config st).1
  | FieldOp.finishValidateOp validateIteration validationType validationErrors =>
      (onValidationResult st validateIteration validationType validationErrors).1

/-! Reference functions written from the spec's words, for refinement-style
comparisons with the embedded code. -/

/-- Reference step following the spec's words for the accumulate-all case: a
type-matching validator runs against the errors collected so far and any
failure it signals is appended, without halting the run. -/
def specRunAll (formData valueToValidate : Val) (path : String)
    (validationTypeToValidate : Option String)
    (acc : List ValidationError) (validation : ValidationConfig) : List ValidationError :=
  if typeMismatch validationTypeToValidate (validation.type.getD VALIDATION_TYPES.FIELD) then
    acc
  else
    match validation.validator ⟨valueToValidate, acc, formData, path⟩ with
    | ValidatorOutcome.ok => acc
    | ValidatorOutcome.fail validationResult =>
        acc ++ [pushedError validation validationResult]
    | ValidatorOutcome.thrown error => acc ++ [pushedError validation error]

/-- Reference function following the spec's words: run every type-matching
validator in declared order and accumulate every failure. -/
def specAccumulateFailures (validations : List ValidationConfig)
    (formData valueToValidate : Val) (path : String)
    (validationTypeToValidate : Option String) : List ValidationError :=
  validations.foldl (specRunAll formData valueToValidate path validationTypeToValidate) []

/-- The errors `getErrorsMessages` counts toward the requested bucket: those
whose `validationType` equals the requested type, plus — for the "field"
bucket — those without the property. -/
def bucketErrors (errors : List ValidationError) (validationType : String) :
    List ValidationError :=
  errors.filter (fun error =>
    decide (error.validationType = some validationType ∨
      (validationType = VALIDATION_TYPES.FIELD ∧ error.validationType = none)))

/-- Reference comma-separated join following the spec's words. -/
def joinComma : List String → String
  | [] => ""
  | [m] => m
  | m :: rest₁ :: rest₂ => m ++ ", " ++ joinComma (rest₁ :: rest₂)

/-- Reference function following the spec's words for `getErrorsMessages`: the
comma-separated join of the messages of the bucket's errors, or `null` when
the bucket is empty. -/
def specGetErrorsMessages (errors : List ValidationError) (validationType : String) :
    Option String :=
  let msgs := (bucketErrors errors validationType).map (fun error => error.message)
  if msgs.isEmpty then none else some (joinComma msgs)

/-! Helper lemmas. -/

/-- Membership in a filtered error list: the error was there and matches none
of the addressed types. -/
lemma mem_filterErrors {e : ValidationError} {errors : List ValidationError}
    {ts : List String} :
    e ∈ filterErrors errors ts ↔ e ∈ errors ∧ ∀ t ∈ ts, e.validationType ≠ some t := by
  simp [filterErrors, List.mem_filter, List.all_eq_true]

lemma validateStart_fst_validateCounter (config : FieldConfig) (st : FieldState) :
    (validateStart config st).1.validateCounter = st.validateCounter + 1 := by
  by_cases h : config.isValidationAsync <;> simp [validateStart, clearErrorsSt, h]

lemma validateStart_snd (config : FieldConfig) (st : FieldState) :
    (validateStart config st).2 = st.validateCounter + 1 := by
  by_cases h : config.isValidationAsync <;> simp [validateStart, clearErrorsSt, h]

lemma validateStart_fst_isValidating (config : FieldConfig) (st : FieldState) :
    (validateStart config st).1.isValidating = true := by
  by_cases h : config.isValidationAsync <;> simp [validateStart, clearErrorsSt, h]

lemma validateStart_fst_isPristine (config : FieldConfig) (st : FieldState) :
    (validateStart config st).1.isPristine = st.isPristine := by
  by_cases h : config.isValidationAsync <;> simp [validateStart, clearErrorsSt, h]

lemma onValidationResult_fst_isPristine (st : FieldState) (validateIteration : Nat)
    (validationType : Option String) (validationErrors : List ValidationError) :
    (onValidationResult st validateIteration validationType validationErrors).1.isPristine
      = st.isPristine := by
  by_cases h : validateIteration = st.validateCounter <;> simp [onValidationResult, h]

lemma onValidationResult_stale (st : FieldState) (validateIteration : Nat)
    (validationType : Option String) (validationErrors : List ValidationError)
    (h : validateIteration ≠ st.validateCounter) :
    onValidationResult st validateIteration validationType validationErrors
      = (st, { isValid := validationErrors.length == 0, errors := validationErrors }) := by
  simp [onValidationResult, h]

lemma onValidationResult_fresh (st : FieldState) (validateIteration : Nat)
    (validationType : Option String) (validationErrors : List ValidationError)
    (h : validateIteration = st.validateCounter) :
    onValidationResult st validateIteration validationType validationErrors
      = ({ st with
            isValidating := false
            errors := filterErrors st.errors (vtToList validationType) ++ validationErrors },
         { isValid := validationErrors.length == 0, errors := validationErrors }) := by
  simp [onValidationResult, h]

/-! Sample data used by witnesses and counterexamples. -/

/-- A sample error tagged with the "field" validation type. -/
def errFieldA : ValidationError := ⟨"a", some VALIDATION_TYPES.FIELD⟩

/-- A sample error tagged with the "async" validation type. -/
def errAsyncB : ValidationError := ⟨"b", some VALIDATION_TYPES.ASYNC⟩

/-- A sample error without a `validationType` property. -/
def errUntaggedC : ValidationError := ⟨"c", none⟩

/-- A sample non-pristine field state holding one error of each kind. -/
def sampleState : FieldState :=
  { value := Val.str ""
    errors := [errFieldA, errAsyncB, errUntaggedC]
    isPristine := false
    isValidating := false
    isUpdating := false
    validateCounter := 0 }

/-- A sample formatter standing in for the shared `toInt`. -/
def sampleToInt : Val → Val := fun _ => Val.int 42

/-! Claim theorems. -/

/-- C4: after `setValue x` the stored value is the field's formatter chain
(the configured chain, extended by the default formatter as `setDefaultFormatter`
computes it) folded over `x` in declared order, except that a string trimming
to empty skips the chain and is stored literally. -/
theorem claim_C4 (toInt : Val → Val) (config : FieldConfig) (st : FieldState) :
    (∀ s : String, s.data.all Char.isWhitespace = true →
      (setValue toInt config st (Val.str s)).value = Val.str s) ∧
    (∀ s : String, s.data.all Char.isWhitespace = false →
      (setValue toInt config st (Val.str s)).value
        = (setDefaultFormatter toInt config).foldl
            (fun output formatter => formatter output) (Val.str s)) ∧
    (∀ x : Val, (∀ s : String, x ≠ Val.str s) →
      (setValue toInt config st x).value
        = (setDefaultFormatter toInt config).foldl
            (fun output formatter => formatter output) x) := by
  refine ⟨fun s hs => ?_, fun s hs => ?_, fun x hx => ?_⟩
  · simp [setValue, onValueChange, runFormatters, hs]
  · simp [setValue, onValueChange, runFormatters, hs]
  · cases x with
    | str s => exact absurd rfl (hx s)
    | int n => simp [setValue, onValueChange, runFormatters]
    | bool b => simp [setValue, onValueChange, runFormatters]
    | null => simp [setValue, onValueChange, runFormatters]

/-- C4 witness: a two-formatter chain applied in order to a non-whitespace
string, and a whitespace-only string kept literally. -/
theorem claim_C4_witness :
    (setValue sampleToInt
      { formatters := [fun _ => Val.int 1, fun _ => Val.str "second"] }
      sampleState (Val.str "x")).value = Val.str "second" ∧
    (setValue sampleToInt
      { formatters := [fun _ => Val.int 1, fun _ => Val.str "second"] }
      sampleState (Val.str "  ")).value = Val.str "  " := by
  constructor
  · have h := (claim_C4 sampleToInt
      { formatters := [fun _ => Val.int 1, fun _ => Val.str "second"] } sampleState).2.1
      "x" (by decide)
    simpa [setDefaultFormatter] using h
  · exact (claim_C4 sampleToInt
      { formatters := [fun _ => Val.int 1, fun _ => Val.str "second"] } sampleState).1
      "  " (by decide)

/-- C5: `isPristine` is true right after init, false after any `setValue`, and
no exposed operation turns it back to true once false. -/
theorem claim_C5 (toInt : Val → Val) (config : FieldConfig) (path : String)
    (st st2 : FieldState) (newValue : Val) (op : FieldOp)
    (h : st2.isPristine = false) :
    (initField config).isPristine = true ∧
    (setValue toInt config st newValue).isPristine = false ∧
    (applyOp toInt config path st2 op).isPristine = false := by
  refine ⟨rfl, ?_, ?_⟩
  · by_cases hp : st.isPristine <;> simp [setValue, onValueChange, hp]
  · cases op with
    | setValueOp newValue => by_cases hp : st2.isPristine <;>
        simp [applyOp, setValue, onValueChange, hp, h]
    | clearErrorsOp ts => simpa [applyOp, clearErrorsSt] using h
    | setErrorsOp es => simpa [applyOp] using h
    | validateOp formData vt =>
        simpa [applyOp, validate, onValidationResult_fst_isPristine,
          validateStart_fst_isPristine] using h
    | startValidateOp => simpa [applyOp, validateStart_fst_isPristine] using h
    | finishValidateOp iter vt ve =>
        simpa [applyOp, onValidationResult_fst_isPristine] using h

/-- C5 witness: a concrete non-pristine state stays non-pristine under a
`clearErrors` operation, and the initial state of a concrete config is
pristine while `setValue` drops the flag. -/
theorem claim_C5_witness :
    (initField {}).isPristine = true ∧
    (setValue sampleToInt {} (initField {}) (Val.str "x")).isPristine = false ∧
    (applyOp sampleToInt {} "p" sampleState
      (FieldOp.clearErrorsOp [VALIDATION_TYPES.FIELD])).isPristine = false := by
  have h := claim_C5 sampleToInt {} "p" (initField {}) sampleState (Val.str "x")
    (FieldOp.clearErrorsOp [VALIDATION_TYPES.FIELD]) (by decide)
  exact ⟨h.1, h.2.1, h.2.2⟩

/-- C6: `clearErrors t` keeps exactly the errors whose `validationType` differs
from `t` (in order, unchanged); the omitted argument defaults to "field"; in
particular an error of a different tag such as "field" survives
`clearErrors "async"`. -/
theorem claim_C6 (st : FieldState) (t : String) :
    ((clearErrorsSt st [t]).errors
      = st.errors.filter (fun e => decide (e.validationType ≠ some t))) ∧
    (∀ e : ValidationError,
      e ∈ (clearErrorsSt st [t]).errors ↔ e ∈ st.errors ∧ e.validationType ≠ some t) ∧
    clearErrorsDefault st = clearErrorsSt st [VALIDATION_TYPES.FIELD] ∧
    (∀ e ∈ st.errors, e.validationType ≠ some t → e ∈ (clearErrorsSt st [t]).errors) := by
  refine ⟨?_, fun e => ?_, rfl, fun e he hne => ?_⟩
  · simp [clearErrorsSt, filterErrors]
  · simp [clearErrorsSt, mem_filterErrors]
  · simp only [clearErrorsSt]
    exact mem_filterErrors.2 ⟨he, by simpa using hne⟩

/-- C6 witness: on the sample state, `clearErrors "async"` removes exactly the
async-tagged error, and the field-tagged error survives. -/
theorem claim_C6_witness :
    (clearErrorsSt sampleState [VALIDATION_TYPES.ASYNC]).errors
      = [errFieldA, errUntaggedC] ∧
    errFieldA ∈ (clearErrorsSt sampleState [VALIDATION_TYPES.ASYNC]).errors := by
  have h := claim_C6 sampleState VALIDATION_TYPES.ASYNC
  refine ⟨by rw [h.1]; decide, h.2.2.2 errFieldA (by decide) (by decide)⟩

/-- C2: for two overlapping `validate` invocations — A started, then B started
before A's result is applied — A's completed result leaves the state exactly as
it was (errors untouched, `isValidating` not cleared) while A's caller still
receives A's own `{ isValid, errors }`; B's result is applied: the addressed
type is filtered out of the visible errors and B's errors are appended, and the
`isValidating` flag is cleared, with B's caller receiving B's own outcome. -/
theorem claim_C2 (config : FieldConfig) (st : FieldState) (vtA vtB : Option String)
    (eA eB : List ValidationError) :
    let startA := validateStart config st
    let startB := validateStart config startA.1
    let finishA := onValidationResult startB.1 startA.2 vtA eA
    let finishB := onValidationResult finishA.1 startB.2 vtB eB
    finishA.1 = startB.1 ∧
    finishA.2 = { isValid := eA.length == 0, errors := eA } ∧
    finishB.1.errors = filterErrors startB.1.errors (vtToList vtB) ++ eB ∧
    finishB.1.isValidating = false ∧
    finishB.2 = { isValid := eB.length == 0, errors := eB } := by
  have hstale : onValidationResult (validateStart config (validateStart config st).1).1
      (validateStart config st).2 vtA eA
      = ((validateStart config (validateStart config st).1).1,
         { isValid := eA.length == 0, errors := eA }) := by
    apply onValidationResult_stale
    simp only [validateStart_snd, validateStart_fst_validateCounter]
    omega
  have hsnd : (validateStart config (validateStart config st).1).2
      = (validateStart config (validateStart config st).1).1.validateCounter := by
    simp only [validateStart_snd, validateStart_fst_validateCounter]
  have hfresh := onValidationResult_fresh (validateStart config (validateStart config st).1).1
      (validateStart config (validateStart config st).1).2 vtB eB hsnd
  simp only [hstale, hfresh]
  exact ⟨trivial, trivial, trivial, trivial, trivial⟩

/-- C9: with an empty configured formatter list and field type "number", the
`toInt` formatter is installed as the sole formatter, so `setValue` on a
non-whitespace string stores `toInt` of it; any other type, or any configured
formatter, leaves the configured list untouched. -/
theorem claim_C9 (toInt : Val → Val) (config config2 : FieldConfig) (st : FieldState)
    (s : String)
    (h1 : config.type = FIELD_TYPES.NUMBER) (h2 : config.formatters = [])
    (h3 : s.data.all Char.isWhitespace = false)
    (h4 : config2.formatters ≠ [] ∨ config2.type ≠ FIELD_TYPES.NUMBER) :
    setDefaultFormatter toInt config = [toInt] ∧
    (setValue toInt config st (Val.str s)).value = toInt (Val.str s) ∧
    setDefaultFormatter toInt config2 = config2.formatters := by
  have hd : setDefaultFormatter toInt config = [toInt] := by
    simp [setDefaultFormatter, h1, h2]
  refine ⟨hd, ?_, ?_⟩
  · simp [setValue, onValueChange, runFormatters, h3, hd]
  · rcases h4 with h | h
    · have hlen : config2.formatters.length > 0 := by
        cases hf : config2.formatters with
        | nil => exact absurd hf h
        | cons a l => simp [hf]
      simp [setDefaultFormatter, hlen]
    · by_cases hf : config2.formatters.length > 0
      · simp [setDefaultFormatter, hf]
      · simp [setDefaultFormatter, hf, h]

/-- C9 witness: a number-typed config with no configured formatter gets the
stand-in `toInt` installed and `setValue "7"` stores its output, while a
text-typed config gets no default formatter. -/
theorem claim_C9_witness :
    setDefaultFormatter sampleToInt { type := FIELD_TYPES.NUMBER } = [sampleToInt] ∧
    (setValue sampleToInt { type := FIELD_TYPES.NUMBER } sampleState (Val.str "7")).value
      = Val.int 42 ∧
    setDefaultFormatter sampleToInt { type := FIELD_TYPES.TEXT } = [] := by
  have h := claim_C9 sampleToInt { type := FIELD_TYPES.NUMBER } { type := FIELD_TYPES.TEXT }
    sampleState "7" rfl rfl (by decide) (Or.inr (by decide))
  exact ⟨h.1, by rw [h.2.1]; rfl, by rw [h.2.2]⟩

/-- C10: an error stored without a `validationType` property survives
`clearErrors` for every list of addressed types (its absent tag never equals an
addressed type), yet `getErrorsMessages` with the default "field" type counts
it in the field bucket and reports its message. -/
theorem claim_C10 (errors : List ValidationError) (ts : List String) (e : ValidationError)
    (he : e ∈ errors) (hnone : e.validationType = none) :
    e ∈ filterErrors errors ts ∧
    e ∈ bucketErrors errors VALIDATION_TYPES.FIELD ∧
    (e.message ≠ "" → getErrorsMessagesDefault [e] = some e.message) := by
  refine ⟨mem_filterErrors.2 ⟨he, fun t _ => by simp [hnone]⟩, ?_, fun hm => ?_⟩
  · simp [bucketErrors, List.mem_filter, he, hnone]
  · simp [getErrorsMessagesDefault, getErrorsMessages, hnone, hm]

/-- C10 witness: the untagged sample error survives `clearErrors` with the
default "field" type and is reported by `getErrorsMessages` in the field
bucket. -/
theorem claim_C10_witness :
    errUntaggedC ∈ filterErrors sampleState.errors [VALIDATION_TYPES.FIELD] ∧
    errUntaggedC ∈ bucketErrors sampleState.errors VALIDATION_TYPES.FIELD ∧
    getErrorsMessagesDefault [errUntaggedC] = some "c" := by
  have h := claim_C10 sampleState.errors [VALIDATION_TYPES.FIELD] errUntaggedC
    (by decide) (by decide)
  exact ⟨h.1, h.2.1, by rw [h.2.2 (by decide)]; rfl⟩

/-! Lemmas about the validator loop. -/

/-- Once `skip` is set, the rest of the loop leaves the state untouched. -/
lemma foldl_runValidation_skip (formData valueToValidate : Val) (path : String)
    (vt : Option String) (validations : List ValidationConfig)
    (errs : List ValidationError) :
    validations.foldl (runValidation formData valueToValidate path vt) (true, errs)
      = (true, errs) := by
  induction validations with
  | nil => rfl
  | cons v vs ih =>
      rw [List.foldl_cons]
      have hstep : runValidation formData valueToValidate path vt (true, errs) v
          = (true, errs) := by
        simp [runValidation]
      rw [hstep]
      exact ih

/-- A prefix whose type-matching validators all return ok leaves the loop state
at `(false, [])`. -/
lemma foldl_runValidation_ok_prefix (formData valueToValidate : Val) (path : String)
    (vt : Option String) (pre : List ValidationConfig)
    (h : ∀ u ∈ pre, typeMismatch vt (u.type.getD VALIDATION_TYPES.FIELD) = false →
      u.validator ⟨valueToValidate, [], formData, path⟩ = ValidatorOutcome.ok) :
    pre.foldl (runValidation formData valueToValidate path vt) (false, []) = (false, []) := by
  induction pre with
  | nil => rfl
  | cons u us ih =>
      rw [List.foldl_cons]
      have hstep : runValidation formData valueToValidate path vt (false, []) u
          = (false, []) := by
        by_cases hm : typeMismatch vt (u.type.getD VALIDATION_TYPES.FIELD) = true
        · simp [runValidation, hm]
        · rw [Bool.not_eq_true] at hm
          have hok := h u (List.mem_cons_self _ _) hm
          simp [runValidation, hm, hok]
      rw [hstep]
      exact ih (fun u hu hm => h u (List.mem_cons_of_mem _ hu) hm)

/-- When every validation that can fail has `exitOnFail` explicitly false and
no validator throws, the loop never sets `skip` and accumulates exactly what
the spec's accumulate-all reference function collects.  Passing validators may
keep any `exitOnFail` setting. -/
lemma foldl_runValidation_all_noexit (formData valueToValidate : Val) (path : String)
    (vt : Option String) :
    ∀ (validations : List ValidationConfig) (acc : List ValidationError),
    (∀ u ∈ validations, ∀ args e,
      u.validator args = ValidatorOutcome.fail e → u.exitOnFail = some false) →
    (∀ u ∈ validations, ∀ args e, u.validator args ≠ ValidatorOutcome.thrown e) →
    validations.foldl (runValidation formData valueToValidate path vt) (false, acc)
      = (false, validations.foldl (specRunAll formData valueToValidate path vt) acc) := by
  intro validations
  induction validations with
  | nil => intro acc _ _; rfl
  | cons u us ih =>
      intro acc hexit hthrow
      rw [List.foldl_cons, List.foldl_cons]
      have hstep : runValidation formData valueToValidate path vt (false, acc) u
          = (false, specRunAll formData valueToValidate path vt acc u) := by
        by_cases hm : typeMismatch vt (u.type.getD VALIDATION_TYPES.FIELD) = true
        · simp [runValidation, specRunAll, hm]
        · rw [Bool.not_eq_true] at hm
          cases hr : u.validator ⟨valueToValidate, acc, formData, path⟩ with
          | ok => simp [runValidation, specRunAll, hm, hr]
          | fail r =>
              have hb : (u.exitOnFail == some false) = true := by
                rw [hexit u (List.mem_cons_self _ _) _ r hr]; rfl
              simp [runValidation, specRunAll, hm, hr, hb]
          | thrown r => exact absurd hr (hthrow u (List.mem_cons_self _ _) _ r)
      rw [hstep]
      exact ih _ (fun v hv => hexit v (List.mem_cons_of_mem _ hv))
        (fun v hv => hthrow v (List.mem_cons_of_mem _ hv))

/-! Concrete validations used by witnesses and counterexamples. -/

/-- A validator that always passes. -/
def vOk : ValidationConfig := { validator := fun _ => ValidatorOutcome.ok }

/-- A validator that returns a truthy failure "e1" with `exitOnFail` left at
its default. -/
def vFail1 : ValidationConfig := { validator := fun _ => ValidatorOutcome.fail ⟨"e1", none⟩ }

/-- A validator that returns a truthy failure "e1" with `exitOnFail: false`. -/
def vFail1NoExit : ValidationConfig :=
  { validator := fun _ => ValidatorOutcome.fail ⟨"e1", none⟩, exitOnFail := some false }

/-- A validator that returns a truthy failure "e2" with `exitOnFail: false`. -/
def vFail2NoExit : ValidationConfig :=
  { validator := fun _ => ValidatorOutcome.fail ⟨"e2", none⟩, exitOnFail := some false }

/-- A validator that throws the failure "e1" despite `exitOnFail: false`. -/
def vThrow1NoExit : ValidationConfig :=
  { validator := fun _ => ValidatorOutcome.thrown ⟨"e1", none⟩, exitOnFail := some false }

/-- C1: in both the sync and the async validator runs, when the type-matching
validators before `v` all pass and `v` returns a truthy failure with
`exitOnFail` not explicitly false, the result holds only `v`'s decorated error
whatever validators follow (and the loop's skip flag is set, so they are never
invoked); and when every validation has `exitOnFail: false` and no validator
throws, no validator is skipped and the result accumulates every failure in
declared order, as the spec's accumulate-all reference function states.  The
second part conditions `exitOnFail: false` only on validators that can fail;
passing validators may keep the default flag ("fails" meaning, as the claim
itself defines, returning a truthy value — hence the no-throw hypothesis). -/
theorem claim_C1 :
    (∀ (formData valueToValidate : Val) (path : String) (vt : Option String)
        (pre post : List ValidationConfig) (v : ValidationConfig) (e : ValidationError),
      (∀ u ∈ pre, typeMismatch vt (u.type.getD VALIDATION_TYPES.FIELD) = false →
        u.validator ⟨valueToValidate, [], formData, path⟩ = ValidatorOutcome.ok) →
      typeMismatch vt (v.type.getD VALIDATION_TYPES.FIELD) = false →
      v.validator ⟨valueToValidate, [], formData, path⟩ = ValidatorOutcome.fail e →
      v.exitOnFail ≠ some false →
      validateSync (pre ++ v :: post) formData valueToValidate path vt = [pushedError v e] ∧
      validateAsyncErrors (pre ++ v :: post) formData valueToValidate path vt
        = [pushedError v e] ∧
      ((pre ++ v :: post).foldl (runValidation formData valueToValidate path vt)
        (false, [])).1 = true) ∧
    (∀ (formData valueToValidate : Val) (path : String) (vt : Option String)
        (validations : List ValidationConfig),
      (∀ u ∈ validations, ∀ args e,
        u.validator args = ValidatorOutcome.fail e → u.exitOnFail = some false) →
      (∀ u ∈ validations, ∀ args e, u.validator args ≠ ValidatorOutcome.thrown e) →
      validateSync validations formData valueToValidate path vt
        = specAccumulateFailures validations formData valueToValidate path vt ∧
      validateAsyncErrors validations formData valueToValidate path vt
        = specAccumulateFailures validations formData valueToValidate path vt ∧
      (validations.foldl (runValidation formData valueToValidate path vt)
        (false, [])).1 = false) := by
  constructor
  · intro formData valueToValidate path vt pre post v e hpre hmatch hfail hexit
    have hb : (v.exitOnFail == some false) = false := by
      cases hv : v.exitOnFail with
      | none => rfl
      | some b =>
          cases b with
          | false => exact absurd hv hexit
          | true => rfl
    have hfold : (pre ++ v :: post).foldl
        (runValidation formData valueToValidate path vt) (false, [])
        = (true, [pushedError v e]) := by
      rw [List.foldl_append,
        foldl_runValidation_ok_prefix formData valueToValidate path vt pre hpre,
        List.foldl_cons]
      have hstep : runValidation formData valueToValidate path vt (false, []) v
          = (true, [pushedError v e]) := by
        simp [runValidation, hmatch, hfail, hb]
      rw [hstep]
      exact foldl_runValidation_skip formData valueToValidate path vt post _
    refine ⟨?_, ?_, ?_⟩
    · unfold validateSync
      rw [hfold]
    · unfold validateAsyncErrors
      rw [hfold]
    · rw [hfold]
  · intro formData valueToValidate path vt validations hexit hthrow
    have h := foldl_runValidation_all_noexit formData valueToValidate path vt
      validations [] hexit hthrow
    refine ⟨?_, ?_, ?_⟩
    · unfold validateSync specAccumulateFailures
      rw [h]
    · unfold validateAsyncErrors specAccumulateFailures
      rw [h]
    · rw [h]

/-- C1 witness: with the default `exitOnFail`, a passing validator followed by
a failing one and a further (would-fail) one yields only the first failure; a
mixed sequence — a passing validator keeping the default flag followed by a
failing `exitOnFail: false` one — matches the spec's accumulate-all reference
and collects the one failure; with `exitOnFail: false` on two failing
validators, both failures are collected in declared order. -/
theorem claim_C1_witness :
    validateSync [vOk, vFail1, vFail2NoExit] Val.null (Val.str "x") "p" none
      = [⟨"e1", some VALIDATION_TYPES.FIELD⟩] ∧
    validateSync [vOk, vFail2NoExit] Val.null (Val.str "x") "p" none
      = specAccumulateFailures [vOk, vFail2NoExit] Val.null (Val.str "x") "p" none ∧
    specAccumulateFailures [vOk, vFail2NoExit] Val.null (Val.str "x") "p" none
      = [⟨"e2", some VALIDATION_TYPES.FIELD⟩] ∧
    validateSync [vFail1NoExit, vFail2NoExit] Val.null (Val.str "x") "p" none
      = specAccumulateFailures [vFail1NoExit, vFail2NoExit] Val.null (Val.str "x") "p" none ∧
    specAccumulateFailures [vFail1NoExit, vFail2NoExit] Val.null (Val.str "x") "p" none
      = [⟨"e1", some VALIDATION_TYPES.FIELD⟩, ⟨"e2", some VALIDATION_TYPES.FIELD⟩] := by
  have h1 := (claim_C1.1 Val.null (Val.str "x") "p" none [vOk] [vFail2NoExit] vFail1
    ⟨"e1", none⟩ (by decide) (by decide) (by decide) (by decide)).1
  have h2 := (claim_C1.2 Val.null (Val.str "x") "p" none [vOk, vFail2NoExit] ?hfa ?hta).1
  have h3 := (claim_C1.2 Val.null (Val.str "x") "p" none [vFail1NoExit, vFail2NoExit]
    ?hfb ?htb).1
  case hfa =>
    intro u hu args e hf
    rcases List.mem_cons.1 hu with rfl | hu
    · simp [vOk] at hf
    · rcases List.mem_singleton.1 hu with rfl
      rfl
  case hta =>
    intro u hu args e
    rcases List.mem_cons.1 hu with rfl | hu
    · simp [vOk]
    · rcases List.mem_singleton.1 hu with rfl
      simp [vFail2NoExit]
  case hfb =>
    intro u hu args e hf
    rcases List.mem_cons.1 hu with rfl | hu
    · rfl
    · rcases List.mem_singleton.1 hu with rfl
      rfl
  case htb =>
    intro u hu args e
    rcases List.mem_cons.1 hu with rfl | hu
    · simp [vFail1NoExit]
    · rcases List.mem_singleton.1 hu with rfl
      simp [vFail2NoExit]
  exact ⟨h1.trans (by decide), h2, by decide, h3, by decide⟩

/-- C3 counterexample: with `exitOnFail: false`, throwing the failure "e1"
halts the remaining validators (only "e1" is reported) while returning the very
same truthy failure value does not (both "e1" and "e2" are reported), so a
throwing validator is not treated identically to a returning one. -/
theorem claim_C3_counterexample :
    validateSync [vThrow1NoExit, vFail2NoExit] Val.null (Val.str "x") "p" none
      = [⟨"e1", some VALIDATION_TYPES.FIELD⟩] ∧
    validateSync [vFail1NoExit, vFail2NoExit] Val.null (Val.str "x") "p" none
      = [⟨"e1", some VALIDATION_TYPES.FIELD⟩, ⟨"e2", some VALIDATION_TYPES.FIELD⟩] := by
  exact ⟨by decide, by decide⟩

/-- C3 amended: a thrown failure and a returned truthy failure are normalized
into the same decorated `ValidationError` appended to the run's list, and they
halt the remaining validators in the same circumstances whenever `exitOnFail`
is not explicitly false; when `exitOnFail` is false, a thrown failure still
halts the remaining validators while a returned one does not. -/
theorem claim_C3_amended (formData valueToValidate : Val) (path : String)
    (errs : List ValidationError) (v : ValidationConfig) (e : ValidationError) :
    (v.validator ⟨valueToValidate, errs, formData, path⟩ = ValidatorOutcome.thrown e →
      runValidation formData valueToValidate path none (false, errs) v
        = (true, errs ++ [pushedError v e])) ∧
    (v.validator ⟨valueToValidate, errs, formData, path⟩ = ValidatorOutcome.fail e →
      v.exitOnFail ≠ some false →
      runValidation formData valueToValidate path none (false, errs) v
        = (true, errs ++ [pushedError v e])) ∧
    (v.validator ⟨valueToValidate, errs, formData, path⟩ = ValidatorOutcome.fail e →
      v.exitOnFail = some false →
      runValidation formData valueToValidate path none (false, errs) v
        = (false, errs ++ [pushedError v e])) := by
  refine ⟨fun h => ?_, fun h hexit => ?_, fun h hexit => ?_⟩
  · simp [runValidation, typeMismatch, h]
  · have hb : (v.exitOnFail == some false) = false := by
      cases hv : v.exitOnFail with
      | none => rfl
      | some b =>
          cases b with
          | false => exact absurd hv hexit
          | true => rfl
    simp [runValidation, typeMismatch, h, hb]
  · simp [runValidation, typeMismatch, h, hexit]

/-- C3 amended witness: the throwing and the returning `exitOnFail: false`
validators append the same decorated error, but only the throwing one sets the
skip flag. -/
theorem claim_C3_amended_witness :
    runValidation Val.null (Val.str "x") "p" none (false, []) vThrow1NoExit
      = (true, [⟨"e1", some VALIDATION_TYPES.FIELD⟩]) ∧
    runValidation Val.null (Val.str "x") "p" none (false, []) vFail1NoExit
      = (false, [⟨"e1", some VALIDATION_TYPES.FIELD⟩]) := by
  have h := claim_C3_amended Val.null (Val.str "x") "p" [] vThrow1NoExit ⟨"e1", none⟩
  have h2 := claim_C3_amended Val.null (Val.str "x") "p" [] vFail1NoExit ⟨"e1", none⟩
  exact ⟨(h.1 (by decide)).trans (by decide),
    (h2.2.2 (by decide) (by decide)).trans (by decide)⟩

/-! Claims about error-state updates across a validate run. -/

/-- An async-mode field config with no validators. -/
def cfgAsyncEmpty : FieldConfig := { isValidationAsync := true }

/-- C7 counterexample: before an async-mode run addressed to the "field" type,
the state holds an error tagged "async" — a type other than the addressed one —
yet after the run that error is gone, because `validateAsync` clears field and
async errors at its start. -/
theorem claim_C7_counterexample :
    errAsyncB ∈ sampleState.errors ∧
    errAsyncB.validationType = some VALIDATION_TYPES.ASYNC ∧
    VALIDATION_TYPES.ASYNC ≠ VALIDATION_TYPES.FIELD ∧
    errAsyncB ∉
      (validate cfgAsyncEmpty "p" sampleState Val.null (some VALIDATION_TYPES.FIELD)).1.errors := by
  exact ⟨by decide, by decide, by decide, by decide⟩

/-- C7 amended: an error survives a complete validate run when its type is not
the addressed one (default "field"), and — for an async-mode run — is
additionally neither "field" nor "async", since the async path clears both of
those at the start of the run; sync-mode runs clear only the addressed type. -/
theorem claim_C7_amended (config : FieldConfig) (path : String) (st : FieldState)
    (formData : Val) (vt : Option String) (e : ValidationError)
    (he : e ∈ st.errors)
    (hvt : ∀ t ∈ vtToList vt, e.validationType ≠ some t)
    (hasync : config.isValidationAsync = true →
      e.validationType ≠ some VALIDATION_TYPES.FIELD ∧
      e.validationType ≠ some VALIDATION_TYPES.ASYNC) :
    e ∈ (validate config path st formData vt).1.errors := by
  have hsnd : (validateStart config st).2 = (validateStart config st).1.validateCounter := by
    simp [validateStart_snd, validateStart_fst_validateCounter]
  have hmem : e ∈ (validateStart config st).1.errors := by
    by_cases hA : config.isValidationAsync = true
    · have hst : (validateStart config st).1.errors
          = filterErrors st.errors [VALIDATION_TYPES.FIELD, VALIDATION_TYPES.ASYNC] := by
        simp [validateStart, clearErrorsSt, hA]
      rw [hst]
      refine mem_filterErrors.2 ⟨he, ?_⟩
      intro t ht
      rcases List.mem_cons.1 ht with rfl | ht
      · exact (hasync hA).1
      · rcases List.mem_singleton.1 ht with rfl
        exact (hasync hA).2
    · have hst : (validateStart config st).1.errors = st.errors := by
        simp [validateStart, hA]
      rw [hst]
      exact he
  simp only [validate]
  rw [onValidationResult_fresh _ _ _ _ hsnd]
  exact List.mem_append_left _ (mem_filterErrors.2 ⟨hmem, hvt⟩)

/-- C7 amended witness: in a sync-mode run addressed to the default "field"
type, the async-tagged sample error survives the run. -/
theorem claim_C7_amended_witness :
    errAsyncB ∈ (validate {} "p" sampleState Val.null none).1.errors :=
  claim_C7_amended {} "p" sampleState Val.null none errAsyncB (by decide) (by decide)
    (by decide)

/-! Claims about getErrorsMessages. -/

/-- The fold inside `getErrorsMessages` equals the comma-join fold over the
messages of the matching bucket. -/
lemma gem_fold_eq (validationType : String) :
    ∀ (errors : List ValidationError) (acc : String),
    errors.foldl
      (fun messages error =>
        if error.validationType = some validationType ∨
            (validationType = VALIDATION_TYPES.FIELD ∧ error.validationType = none) then
          if messages = "" then error.message else messages ++ ", " ++ error.message
        else messages) acc
      = ((bucketErrors errors validationType).map (fun error => error.message)).foldl
          (fun messages m => if messages = "" then m else messages ++ ", " ++ m) acc := by
  intro errors
  induction errors with
  | nil => intro acc; rfl
  | cons e es ih =>
      intro acc
      by_cases hm : (e.validationType = some validationType ∨
          (validationType = VALIDATION_TYPES.FIELD ∧ e.validationType = none))
      · rw [List.foldl_cons, if_pos hm]
        have hb : bucketErrors (e :: es) validationType = e :: bucketErrors es validationType := by
          simp [bucketErrors, List.filter_cons, hm]
        rw [hb, List.map_cons, List.foldl_cons]
        exact ih _
      · rw [List.foldl_cons, if_neg hm]
        have hb : bucketErrors (e :: es) validationType = bucketErrors es validationType := by
          simp [bucketErrors, List.filter_cons, hm]
        rw [hb]
        exact ih _

/-- A string of the shape `a ++ ", " ++ b` is never empty. -/
lemma append_comma_ne_empty (a b : String) : a ++ ", " ++ b ≠ "" := by
  intro h
  have hlen := congrArg String.length h
  rw [String.length_append, String.length_append] at hlen
  have h2 : String.length ", " = 2 := by decide
  have h0 : String.length "" = 0 := by decide
  rw [h2, h0] at hlen
  omega

/-- Folding the comma-join step from a non-empty accumulator appends the
comma-join of the remaining messages. -/
lemma joinFold_ne_empty_acc :
    ∀ (ms : List String) (acc : String), acc ≠ "" →
    ms.foldl (fun messages m => if messages = "" then m else messages ++ ", " ++ m) acc
      = if ms.isEmpty then acc else acc ++ ", " ++ joinComma ms := by
  intro ms
  induction ms with
  | nil => intro acc h; rfl
  | cons m rest ih =>
      intro acc h
      rw [List.foldl_cons, if_neg h]
      rw [ih _ (append_comma_ne_empty acc m)]
      cases rest with
      | nil => simp [joinComma]
      | cons r rs => simp [joinComma, String.append_assoc]

/-- Folding the comma-join step from the empty accumulator computes the
comma-join of the messages. -/
lemma joinFold_empty_acc (ms : List String) (h : ∀ m ∈ ms, m ≠ "") :
    ms.foldl (fun messages m => if messages = "" then m else messages ++ ", " ++ m) ""
      = joinComma ms := by
  cases ms with
  | nil => rfl
  | cons m rest =>
      rw [List.foldl_cons, if_pos rfl]
      rw [joinFold_ne_empty_acc rest m (h m (List.mem_cons_self _ _))]
      cases rest with
      | nil => simp [joinComma]
      | cons r rs => simp [joinComma]

/-- The comma-join of a non-empty list of non-empty messages is non-empty. -/
lemma joinComma_ne_empty (ms : List String) (h : ∀ m ∈ ms, m ≠ "") (hne : ms ≠ []) :
    joinComma ms ≠ "" := by
  cases ms with
  | nil => exact absurd rfl hne
  | cons m rest =>
      cases rest with
      | nil => exact h m (List.mem_cons_self _ _)
      | cons r rs =>
          simp only [joinComma]
          exact append_comma_ne_empty _ _

/-- An error matching the "field" bucket whose message is the empty string. -/
def errEmptyMsgField : ValidationError := ⟨"", some VALIDATION_TYPES.FIELD⟩

/-- C8 counterexample: on an error list whose single error matches the "field"
bucket but carries an empty message, `getErrorsMessages` returns null even
though the bucket is non-empty and the comma-join of its messages is the (empty)
string, contrary to the claim's join-or-null-on-no-match description. -/
theorem claim_C8_counterexample :
    getErrorsMessages [errEmptyMsgField] VALIDATION_TYPES.FIELD = none ∧
    specGetErrorsMessages [errEmptyMsgField] VALIDATION_TYPES.FIELD = some "" ∧
    bucketErrors [errEmptyMsgField] VALIDATION_TYPES.FIELD ≠ [] := by
  exact ⟨by decide, by decide, by decide⟩

/-- C8 amended: provided every error in the requested bucket (errors whose
`validationType` equals the requested type, plus — for the default "field"
type — errors without the property) has a non-empty message, `getErrorsMessages`
returns the comma-separated join of the bucket's messages, and null when the
bucket is empty, exactly as the spec-side reference function states. -/
theorem claim_C8_amended (errors : List ValidationError) (validationType : String)
    (h : ∀ e ∈ bucketErrors errors validationType, e.message ≠ "") :
    getErrorsMessages errors validationType
      = specGetErrorsMessages errors validationType := by
  have hmsgs : ∀ m ∈ (bucketErrors errors validationType).map (fun error => error.message),
      m ≠ "" := by
    intro m hm
    rcases List.mem_map.1 hm with ⟨e, he, rfl⟩
    exact h e he
  simp only [getErrorsMessages, specGetErrorsMessages]
  rw [gem_fold_eq, joinFold_empty_acc _ hmsgs]
  by_cases hb : (bucketErrors errors validationType).map (fun error => error.message) = []
  · rw [hb]
    simp [joinComma]
  · have hne := joinComma_ne_empty _ hmsgs hb
    simp [hne, hb]

/-- C8 amended witness: on the sample errors, the "field" bucket collects the
tagged field error and the untagged error, joined with a comma; a list with
only an async-tagged error yields null for the "field" bucket. -/
theorem claim_C8_amended_witness :
    getErrorsMessages [errFieldA, errAsyncB, errUntaggedC] VALIDATION_TYPES.FIELD
      = specGetErrorsMessages [errFieldA, errAsyncB, errUntaggedC] VALIDATION_TYPES.FIELD ∧
    getErrorsMessages [errFieldA, errAsyncB, errUntaggedC] VALIDATION_TYPES.FIELD
      = some "a, c" ∧
    getErrorsMessages [errAsyncB] VALIDATION_TYPES.FIELD = none := by
  have h := claim_C8_amended [errFieldA, errAsyncB, errUntaggedC] VALIDATION_TYPES.FIELD
    (by decide)
  have h2 := claim_C8_amended [errAsyncB] VALIDATION_TYPES.FIELD (by decide)
  exact ⟨h, h.trans (by decide), h2.trans (by decide)⟩

end UseFieldModel
